import Mathlib

/-!
Verification of the DevEvents model-validation and connection-caching core.

The development shallowly embeds the repository's data-model hooks into Lean:
strings are handled through their character lists, database lookups become
`Except`-valued parameters, and the asynchronous connection cache becomes an
explicit state machine.  Definitions translated from files present in the
repository cite the file; the event model (`event.model.ts`) and the
connection utility (`lib/mongodb.ts`) are not part of the available sources,
so those definitions are modelled from the specification, as marked.
-/

/-! ## Character classes (ASCII code points, mirroring the JS regex classes) -/

/-- Whitespace characters as used by the JS `\s` class (common ASCII subset:
space, tab, line feed, carriage return). -/
def isWsChar (c : Char) : Bool :=
  c.toNat == 32 || c.toNat == 9 || c.toNat == 10 || c.toNat == 13

/-- ASCII decimal digit (`[0-9]`). -/
def isDigitChar (c : Char) : Bool :=
  decide (48 ≤ c.toNat) && decide (c.toNat ≤ 57)

/-- ASCII lowercase letter or digit (`[a-z0-9]`). -/
def isLowerAlnum (c : Char) : Bool :=
  (decide (97 ≤ c.toNat) && decide (c.toNat ≤ 122)) || isDigitChar c

/-- ASCII lowercasing, as `String.prototype.toLowerCase` acts on ASCII. -/
def toLowerAscii (c : Char) : Char :=
  if 65 ≤ c.toNat ∧ c.toNat ≤ 90 then Char.ofNat (c.toNat + 32) else c

/-- Numeric value of a digit character. -/
def digitVal (c : Char) : Nat := c.toNat - 48

/-- The digit character for a value below ten. -/
def digitChar (n : Nat) : Char := Char.ofNat (48 + n)

/-- Trim leading and trailing characters satisfying `p` (JS `trim` for
whitespace, and the hyphen-trimming step of slug derivation). -/
def trimEnds (p : Char → Bool) (l : List Char) : List Char :=
  ((l.dropWhile p).reverse.dropWhile p).reverse

/-! ## Slug derivation

Modelled from the spec: `event.model.ts` is not among the available sources.
The spec derives `slug` from `title` by lowercasing, removing non-alphanumeric
characters (whitespace is kept for the next step), collapsing each run of
whitespace to a single hyphen, and trimming leading/trailing hyphens. -/

/-- Characters kept before whitespace collapsing: alphanumerics and
whitespace survive, every other character is removed. -/
def slugKeep (c : Char) : Bool := isLowerAlnum c || isWsChar c

/-- Collapse runs of whitespace to single hyphens; `prevWs` records whether
the previous character was part of a whitespace run. -/
def collapseWsAux (prevWs : Bool) : List Char → List Char
  | [] => []
  | c :: rest =>
    if isWsChar c then
      if prevWs then collapseWsAux true rest
      else Char.ofNat 45 :: collapseWsAux true rest
    else c :: collapseWsAux false rest

/-- Modelled from the spec: slug derivation from a title (spec section 3):
lowercase, drop non-alphanumerics, collapse whitespace runs to hyphens, trim
hyphens at both ends. -/
def slugify (title : String) : String :=
  String.mk
    (trimEnds (fun c => c == Char.ofNat 45)
      (collapseWsAux false ((title.data.map toLowerAscii).filter slugKeep)))

/-- A character legal in a derived slug: `[a-z0-9-]`. -/
def isSlugChar (c : Char) : Bool := isLowerAlnum c || c == Char.ofNat 45

/-- A list of characters does not start with a hyphen. -/
def noLeadHyphen : List Char → Bool
  | [] => true
  | c :: _ => c != Char.ofNat 45

/-- A list of characters does not end with a hyphen. -/
def noTrailHyphen (l : List Char) : Bool := noLeadHyphen l.reverse

/-! ### Slug lemmas -/

theorem collapseWsAux_all (b : Bool) (l : List Char)
    (h : ∀ c ∈ l, slugKeep c = true) :
    ∀ c ∈ collapseWsAux b l, isSlugChar c = true := by
  induction l generalizing b with
  | nil => intro c hc; simp [collapseWsAux] at hc
  | cons a rest ih =>
    intro c hc
    have ha : slugKeep a = true := h a (List.mem_cons_self a rest)
    have hrest : ∀ c ∈ rest, slugKeep c = true :=
      fun c hc => h c (List.mem_cons_of_mem a hc)
    by_cases hw : isWsChar a = true
    · simp only [collapseWsAux, hw, if_true] at hc
      by_cases hb : b = true
      · subst hb; simp only [if_true] at hc
        exact ih true hrest c hc
      · have hb2 : b = false := by
          cases b with
          | true => exact absurd rfl hb
          | false => rfl
        subst hb2
        simp only [Bool.false_eq_true, if_false, List.mem_cons] at hc
        rcases hc with hc | hc
        · subst hc; decide
        · exact ih true hrest c hc
    · have hw2 : isWsChar a = false := by
        cases hx : isWsChar a with
        | true => exact absurd hx hw
        | false => rfl
      simp only [collapseWsAux, hw2, Bool.false_eq_true, if_false,
        List.mem_cons] at hc
      rcases hc with hc | hc
      · subst hc
        have : isLowerAlnum c = true := by
          simpa [slugKeep, hw2] using ha
        simp [isSlugChar, this]
      · exact ih false hrest c hc

theorem noLeadHyphen_dropWhile (l : List Char) :
    noLeadHyphen (l.dropWhile (fun c => c == Char.ofNat 45)) = true := by
  induction l with
  | nil => rfl
  | cons a rest ih =>
    by_cases h : (a == Char.ofNat 45) = true
    · simpa [List.dropWhile, h] using ih
    · have h2 : (a == Char.ofNat 45) = false := by
        cases hx : (a == Char.ofNat 45) with
        | true => exact absurd hx h
        | false => rfl
      simp only [List.dropWhile, h2, noLeadHyphen, bne_iff_ne, ne_eq]
      intro hc
      rw [hc] at h2
      simp at h2

theorem noLeadHyphen_trimEnds (l : List Char) :
    noLeadHyphen (trimEnds (fun c => c == Char.ofNat 45) l) = true := by
  unfold trimEnds
  set p : Char → Bool := fun c => c == Char.ofNat 45 with hp
  set w := l.dropWhile p with hw
  have hnl : noLeadHyphen w = true := noLeadHyphen_dropWhile l
  have hsplit : w.reverse.takeWhile p ++ w.reverse.dropWhile p = w.reverse :=
    List.takeWhile_append_dropWhile p w.reverse
  set y := w.reverse.dropWhile p with hy
  have hwform : y.reverse ++ (w.reverse.takeWhile p).reverse = w := by
    have h2 := congrArg List.reverse hsplit
    simpa using h2
  cases hyy : y.reverse with
  | nil => simp [noLeadHyphen]
  | cons c rest =>
    rw [hyy] at hwform
    rw [← hwform] at hnl
    simpa [noLeadHyphen] using hnl

theorem noTrailHyphen_trimEnds (l : List Char) :
    noTrailHyphen (trimEnds (fun c => c == Char.ofNat 45) l) = true := by
  unfold noTrailHyphen trimEnds
  rw [List.reverse_reverse]
  exact noLeadHyphen_dropWhile _

theorem slugify_data (t : String) :
    (slugify t).data =
      trimEnds (fun c => c == Char.ofNat 45)
        (collapseWsAux false ((t.data.map toLowerAscii).filter slugKeep)) := rfl

theorem mem_trimEnds {p : Char → Bool} {x : Char} {l : List Char}
    (h : x ∈ trimEnds p l) : x ∈ l := by
  unfold trimEnds at h
  rw [List.mem_reverse] at h
  have h2 := (List.dropWhile_sublist _).subset h
  rw [List.mem_reverse] at h2
  exact (List.dropWhile_sublist _).subset h2

/-- C2: the slug derived from any title consists only of characters in
`[a-z0-9-]` and carries no leading or trailing hyphen, and the three
spec examples evaluate as stated. -/
theorem slug_derivation_wellformed : ∀ t : String,
    ((slugify t).data.all isSlugChar = true
      ∧ noLeadHyphen (slugify t).data = true
      ∧ noTrailHyphen (slugify t).data = true)
    ∧ slugify "Event!@#$%^&*()Title" = "eventtitle"
    ∧ slugify "   Event Title   " = "event-title"
    ∧ slugify "Event    With    Multiple    Spaces"
        = "event-with-multiple-spaces" := by
  intro t
  refine ⟨⟨?_, ?_, ?_⟩, by decide, by decide, by decide⟩
  · rw [slugify_data, List.all_eq_true]
    intro c hc
    have hc2 := mem_trimEnds hc
    exact collapseWsAux_all false _
      (fun d hd => List.of_mem_filter hd) c hc2
  · rw [slugify_data]; exact noLeadHyphen_trimEnds _
  · rw [slugify_data]; exact noTrailHyphen_trimEnds _

/-! ## Booking email field (src/database/booking.model.ts, lines 20-33)

The schema declares `trim: true, lowercase: true` setters and a validator
testing the submitted value against the JS regex
`^[^\s@]+@[^\s@]+\.[^\s@]+$`.  The matcher below is a derivative-style
embedding of that regex over character lists; each `Bool` function matches
one suffix of the pattern against the remaining input, and the disjunction
in the recursive cases captures the backtracking choice of how far a `+`
run extends. -/

/-- The regex character class `[^\s@]`: no whitespace, not an at sign. -/
def isEmailChar (c : Char) : Bool := !isWsChar c && c != Char.ofNat 64

/-- Matches `[^\s@]+$`: a nonempty run of email characters to the end. -/
def emailRun : List Char → Bool
  | [] => false
  | c :: rest => isEmailChar c && (rest.isEmpty || emailRun rest)

/-- Matches `\.[^\s@]+$`: a literal dot, then a nonempty run to the end. -/
def emailDotRun : List Char → Bool
  | [] => false
  | c :: rest => c == Char.ofNat 46 && emailRun rest

/-- Matches `[^\s@]+\.[^\s@]+$`: the domain part of the regex. -/
def emailDomain : List Char → Bool
  | [] => false
  | c :: rest => isEmailChar c && (emailDotRun rest || emailDomain rest)

/-- Matches `@[^\s@]+\.[^\s@]+$`: the at sign, then the domain. -/
def emailAt : List Char → Bool
  | [] => false
  | c :: rest => c == Char.ofNat 64 && emailDomain rest

/-- Matches the full anchored regex `^[^\s@]+@[^\s@]+\.[^\s@]+$`. -/
def emailLocal : List Char → Bool
  | [] => false
  | c :: rest => isEmailChar c && (emailAt rest || emailLocal rest)

/-- The booking schema's email validator applied to a string. -/
def emailRegexTest (s : String) : Bool := emailLocal s.data

/-! The spec instead words the accepted shape as
`non-whitespace-characters @ non-whitespace-characters . non-whitespace-characters`,
i.e. the JS regex `^\S+@\S+\.\S+$`.  The same derivative-style embedding
with the `\S` class gives the spec's pattern, used for comparison. -/

/-- The regex character class `\S`: any non-whitespace character. -/
def isNonWsChar (c : Char) : Bool := !isWsChar c

/-- Matches `\S+$`. -/
def specRun : List Char → Bool
  | [] => false
  | c :: rest => isNonWsChar c && (rest.isEmpty || specRun rest)

/-- Matches `\.\S+$`. -/
def specDotRun : List Char → Bool
  | [] => false
  | c :: rest => c == Char.ofNat 46 && specRun rest

/-- Matches `\S+\.\S+$`. -/
def specDomain : List Char → Bool
  | [] => false
  | c :: rest => isNonWsChar c && (specDotRun rest || specDomain rest)

/-- Matches `@\S+\.\S+$`. -/
def specAt : List Char → Bool
  | [] => false
  | c :: rest => c == Char.ofNat 64 && specDomain rest

/-- Matches the spec's full anchored pattern `^\S+@\S+\.\S+$`. -/
def specLocal : List Char → Bool
  | [] => false
  | c :: rest => isNonWsChar c && (specAt rest || specLocal rest)

/-- The spec's permissive email pattern applied to a string. -/
def specEmailTest (s : String) : Bool := specLocal s.data

/-- Email normalization before validation and storage: trim surrounding
whitespace, then lowercase (the schema's `trim` and `lowercase` setters). -/
def normalizeEmail (s : String) : String :=
  String.mk ((trimEnds isWsChar s.data).map toLowerAscii)

/-- The email field pipeline of the booking schema: normalize, then
validate; an invalid value raises the schema's validation message. -/
def bookingEmailField (input : String) : Except String String :=
  let v := normalizeEmail input
  if emailRegexTest v then .ok v
  else .error "Please provide a valid email address"

/-! ### The code's regex is pointwise stronger than the spec's pattern -/

theorem bandElim {a b : Bool} (h : (a && b) = true) : a = true ∧ b = true := by
  simp only [Bool.and_eq_true] at h; exact h

theorem bandIntro {a b : Bool} (h1 : a = true) (h2 : b = true) :
    (a && b) = true := by simp [h1, h2]

theorem bandIntro' {a b : Bool} (h : a = true ∧ b = true) :
    (a && b) = true := by simp [h.1, h.2]

theorem borElim {a b : Bool} (h : (a || b) = true) : a = true ∨ b = true := by
  simp only [Bool.or_eq_true] at h; exact h

theorem borIntro {a b : Bool} (h : a = true ∨ b = true) : (a || b) = true := by
  simp only [Bool.or_eq_true]; exact h

theorem isEmailChar_nonWs {c : Char} (h : isEmailChar c = true) :
    isNonWsChar c = true := by
  unfold isEmailChar at h
  unfold isNonWsChar
  exact (bandElim h).1

theorem emailRun_mono : ∀ l, emailRun l = true → specRun l = true := by
  intro l
  induction l with
  | nil => intro h; exact h
  | cons c rest ih =>
    intro h
    rw [emailRun] at h
    rcases bandElim h with ⟨h1, h2⟩
    rw [specRun]
    refine bandIntro' ⟨isEmailChar_nonWs h1, ?_⟩
    rcases borElim h2 with h3 | h3
    · exact borIntro (Or.inl h3)
    · exact borIntro (Or.inr (ih h3))

theorem emailDotRun_mono : ∀ l, emailDotRun l = true → specDotRun l = true := by
  intro l h
  cases l with
  | nil => exact h
  | cons c rest =>
    rw [emailDotRun] at h
    rcases bandElim h with ⟨h1, h2⟩
    rw [specDotRun]
    exact bandIntro' ⟨h1, emailRun_mono rest h2⟩

theorem emailDomain_mono : ∀ l, emailDomain l = true → specDomain l = true := by
  intro l
  induction l with
  | nil => intro h; exact h
  | cons c rest ih =>
    intro h
    rw [emailDomain] at h
    rcases bandElim h with ⟨h1, h2⟩
    rw [specDomain]
    refine bandIntro' ⟨isEmailChar_nonWs h1, ?_⟩
    rcases borElim h2 with h3 | h3
    · exact borIntro (Or.inl (emailDotRun_mono rest h3))
    · exact borIntro (Or.inr (ih h3))

theorem emailAt_mono : ∀ l, emailAt l = true → specAt l = true := by
  intro l h
  cases l with
  | nil => exact h
  | cons c rest =>
    rw [emailAt] at h
    rcases bandElim h with ⟨h1, h2⟩
    rw [specAt]
    exact bandIntro' ⟨h1, emailDomain_mono rest h2⟩

theorem emailLocal_mono : ∀ l, emailLocal l = true → specLocal l = true := by
  intro l
  induction l with
  | nil => intro h; exact h
  | cons c rest ih =>
    intro h
    rw [emailLocal] at h
    rcases bandElim h with ⟨h1, h2⟩
    rw [specLocal]
    refine bandIntro' ⟨isEmailChar_nonWs h1, ?_⟩
    rcases borElim h2 with h3 | h3
    · exact borIntro (Or.inl (emailAt_mono rest h3))
    · exact borIntro (Or.inr (ih h3))

theorem emailRegexTest_le_spec {s : String} (h : emailRegexTest s = true) :
    specEmailTest s = true := emailLocal_mono s.data h

/-! ## Booking pre-save hook (src/database/booking.model.ts, lines 47-65)

The hook runs when `eventId` is modified or the document is new.  Its `try`
block looks the referenced event up by id and throws
"Referenced event does not exist" when the lookup returns nothing; the
surrounding `catch` converts ANY thrown error — including that one — into
"Failed to validate event reference".  The lookup itself is embedded as an
`Except`-valued argument: `.ok (some e)` is a successful find, `.ok none` a
successful lookup with no match, `.error` a failed lookup. -/

/-- A persisted event document; the hook only consults existence. -/
structure EventDoc where
  title : String
  slug : String
  deriving Repr, DecidableEq

/-- The body of the hook's `try` block: propagate a lookup failure, throw
the referential-integrity message when no event matches. -/
def bookingPreSaveBody (lookup : Except String (Option EventDoc)) :
    Except String Unit :=
  match lookup with
  | .error e => .error e
  | .ok none => .error "Referenced event does not exist"
  | .ok (some _) => .ok ()

/-- The whole hook: guard on `isModified('eventId') || isNew`, run the
`try` block, and let the `catch` replace any error it sees with
"Failed to validate event reference". -/
def bookingPreSave (isModifiedEventId isNew : Bool)
    (lookup : Except String (Option EventDoc)) : Except String Unit :=
  if isModifiedEventId || isNew then
    match bookingPreSaveBody lookup with
    | .error _ => .error "Failed to validate event reference"
    | .ok u => .ok u
  else .ok ()

/-- C1: the hook's two failure kinds are NOT distinguishable.  The inner
`try` block does throw the referential-integrity message when the event is
absent, but the hook's own `catch` swallows it, so a missing event and a
failed lookup surface with the identical error
"Failed to validate event reference". -/
theorem booking_hook_error_collapse :
    bookingPreSaveBody (.ok none) = .error "Referenced event does not exist"
    ∧ bookingPreSave true true (.ok none)
        = .error "Failed to validate event reference"
    ∧ bookingPreSave true true (.error "database down")
        = .error "Failed to validate event reference"
    ∧ bookingPreSave true true (.ok none)
        = bookingPreSave true true (.error "database down") :=
  ⟨rfl, rfl, rfl, rfl⟩

/-- C3: whenever the booking email pipeline stores a value, that value is
the submitted email trimmed and lowercased and it matches the spec's
permissive `\S+@\S+\.\S+` pattern; any input whose normalization fails that
pattern is rejected with the schema's validation message; and
"User@EXAMPLE.COM" is stored as "user@example.com". -/
theorem booking_email_normalized_and_validated : ∀ (input v : String),
    (bookingEmailField input = .ok v →
      v = normalizeEmail input ∧ specEmailTest v = true)
    ∧ (specEmailTest (normalizeEmail input) = false →
      bookingEmailField input = .error "Please provide a valid email address")
    ∧ bookingEmailField "User@EXAMPLE.COM" = .ok "user@example.com" := by
  intro input v
  refine ⟨?_, ?_, rfl⟩
  · intro h
    unfold bookingEmailField at h
    by_cases hr : emailRegexTest (normalizeEmail input) = true
    · simp only [hr, if_true] at h
      cases h
      exact ⟨rfl, emailRegexTest_le_spec hr⟩
    · simp only [Bool.not_eq_true] at hr
      simp [hr] at h
  · intro h
    unfold bookingEmailField
    by_cases hr : emailRegexTest (normalizeEmail input) = true
    · exact absurd (emailRegexTest_le_spec hr) (by simp [h])
    · simp only [Bool.not_eq_true] at hr
      simp [hr]

/-- Witness for C3 at concrete inputs: the accepted example and a rejected
one. -/
theorem booking_email_witness :
    ("user@example.com" = normalizeEmail "User@EXAMPLE.COM"
      ∧ specEmailTest "user@example.com" = true)
    ∧ bookingEmailField "not an email"
        = .error "Please provide a valid email address" :=
  ⟨(booking_email_normalized_and_validated "User@EXAMPLE.COM"
      "user@example.com").1 rfl,
   ((booking_email_normalized_and_validated "not an email" "").2.1 (by decide))⟩

/-! ## Saving bookings and the createBooking action

`Booking.create` / `save` run the schema setters and validators (the email
pipeline above) and then the pre-save hook.  `createBooking`
(src/lib/actions/booking.action.ts, lines 8-20) connects, creates the
booking from `eventId` and `email` only — its `slug` argument is
deliberately not passed on — and folds every failure into a result whose
success flag is false. -/

/-- A persisted booking document: the schema stores `eventId` and `email`
(no slug field exists on the schema). -/
structure BookingDoc where
  eventId : String
  email : String
  deriving Repr, DecidableEq

/-- Creating (first save of) a booking: validate the email field, run the
pre-save hook with `isNew = true`, and persist the two schema fields. -/
def saveNewBooking (findById : String → Except String (Option EventDoc))
    (eventId email : String) : Except String BookingDoc :=
  match bookingEmailField email with
  | .error e => .error e
  | .ok v =>
    match bookingPreSave true true (findById eventId) with
    | .error e => .error e
    | .ok _ => .ok { eventId := eventId, email := v }

/-- A stored booking with its timestamps. -/
structure StoredBooking where
  eventId : String
  email : String
  createdAt : Nat
  updatedAt : Nat
  deriving Repr, DecidableEq

/-- Re-saving an existing booking after only its email changed: the email
pipeline runs, the hook runs with `isModified('eventId') = false` and
`isNew = false`, and the save writes the new email and refreshes
`updatedAt`, leaving `eventId` and `createdAt` untouched. -/
def saveEmailChange (findById : String → Except String (Option EventDoc))
    (doc : StoredBooking) (newEmail : String) (now : Nat) :
    Except String StoredBooking :=
  match bookingEmailField newEmail with
  | .error e => .error e
  | .ok v =>
    match bookingPreSave false false (findById doc.eventId) with
    | .error e => .error e
    | .ok _ => .ok { doc with email := v, updatedAt := now }

/-- The action's result shape: a bare success flag. -/
structure ActionResult where
  success : Bool
  deriving Repr, DecidableEq

/-- The `createBooking` server action: connect, create the booking from
`eventId` and `email` (the `slug` argument is not passed to the model), and
collapse any thrown error into a `success := false` result.  The second
component is the document the call persisted, if any. -/
def createBooking (connect : Except String Unit)
    (findById : String → Except String (Option EventDoc))
    (eventId slug email : String) : ActionResult × Option BookingDoc :=
  match connect with
  | .error _ => ({ success := false }, none)
  | .ok _ =>
    match saveNewBooking findById eventId email with
    | .error _ => ({ success := false }, none)
    | .ok doc => ({ success := true }, some doc)

/-- Whether an `Except` value is a success. -/
def exceptOk {ε α : Type} : Except ε α → Bool
  | .ok _ => true
  | .error _ => false

/-- C8: saving a booking whose `eventId` is unchanged consults the Event
collection not at all — the result is the same for every lookup function,
and the save succeeds even when the lookup would report the event as
deleted — and such a save changes only `email` and `updatedAt`. -/
theorem booking_save_frame :
    ∀ (f1 f2 : String → Except String (Option EventDoc))
      (doc : StoredBooking) (newEmail : String) (now : Nat),
    (saveEmailChange f1 doc newEmail now = saveEmailChange f2 doc newEmail now)
    ∧ (∀ v, bookingEmailField newEmail = .ok v →
        saveEmailChange (fun _ => .ok none) doc newEmail now
          = .ok { doc with email := v, updatedAt := now }) := by
  intro f1 f2 doc newEmail now
  constructor
  · unfold saveEmailChange
    cases bookingEmailField newEmail with
    | error e => rfl
    | ok v => rfl
  · intro v hv
    unfold saveEmailChange
    rw [hv]
    rfl

/-- Witness for C8: an email-only update succeeds and keeps `eventId` and
`createdAt` even though the lookup reports no event. -/
theorem booking_save_frame_witness :
    saveEmailChange (fun _ => .ok none)
        { eventId := "evt1", email := "old@example.com",
          createdAt := 3, updatedAt := 3 } "New@Example.COM" 7
      = .ok { eventId := "evt1", email := "new@example.com",
              createdAt := 3, updatedAt := 7 } :=
  (booking_save_frame (fun _ => .ok none) (fun _ => .error "down")
      { eventId := "evt1", email := "old@example.com",
        createdAt := 3, updatedAt := 3 } "New@Example.COM" 7).2
    "new@example.com" rfl

/-- C9: the action never propagates an error: its success flag is true
exactly when both the connection and the persist succeed, and every
internal failure — connection error, validation error, reference error —
produces the same `success := false` result, the error kind discarded. -/
theorem createBooking_total_boolean :
    ∀ (connect : Except String Unit)
      (findById : String → Except String (Option EventDoc))
      (eventId slug email : String),
    ((createBooking connect findById eventId slug email).1.success
        = (exceptOk connect && exceptOk (saveNewBooking findById eventId email)))
    ∧ (∀ e, createBooking (.error e) findById eventId slug email
        = ({ success := false }, none))
    ∧ (∀ e, saveNewBooking findById eventId email = .error e →
        createBooking (.ok ()) findById eventId slug email
          = ({ success := false }, none))
    ∧ (∀ doc, saveNewBooking findById eventId email = .ok doc →
        createBooking (.ok ()) findById eventId slug email
          = ({ success := true }, some doc)) := by
  intro connect findById eventId slug email
  refine ⟨?_, fun e => rfl, ?_, ?_⟩
  · unfold createBooking
    cases connect with
    | error e => rfl
    | ok u =>
      cases hs : saveNewBooking findById eventId email with
      | error e => simp [exceptOk]
      | ok doc => simp [exceptOk]
  · intro e he
    unfold createBooking
    rw [he]
  · intro doc hd
    unfold createBooking
    rw [hd]

/-- Witness for C9 at concrete inputs: a failing connection, a failing
reference check, and a successful end-to-end create. -/
theorem createBooking_total_boolean_witness :
    createBooking (.error "no database") (fun _ => .ok none)
        "evt1" "react-conf" "a@b.com" = ({ success := false }, none)
    ∧ createBooking (.ok ()) (fun _ => .ok none)
        "evt1" "react-conf" "a@b.com" = ({ success := false }, none)
    ∧ createBooking (.ok ()) (fun _ => .ok (some { title := "t", slug := "s" }))
        "evt1" "react-conf" "A@B.COM" = ({ success := true },
          some { eventId := "evt1", email := "a@b.com" }) :=
  ⟨(createBooking_total_boolean (.error "no database") (fun _ => .ok none)
      "evt1" "react-conf" "a@b.com").2.1 "no database",
   (createBooking_total_boolean (.ok ()) (fun _ => .ok none)
      "evt1" "react-conf" "a@b.com").2.2.1
        "Failed to validate event reference" rfl,
   (createBooking_total_boolean (.ok ())
      (fun _ => .ok (some { title := "t", slug := "s" }))
      "evt1" "react-conf" "A@B.COM").2.2.2
        { eventId := "evt1", email := "a@b.com" } rfl⟩

/-- C10: the action's result and the persisted document are independent of
the `slug` argument — two calls differing only in `slug` agree exactly —
and any persisted document carries only the `eventId` and the normalized
`email`; the schema has no slug field to store. -/
theorem createBooking_slug_independent :
    ∀ (connect : Except String Unit)
      (findById : String → Except String (Option EventDoc))
      (eventId email s1 s2 : String),
    (createBooking connect findById eventId s1 email
        = createBooking connect findById eventId s2 email)
    ∧ (∀ doc, (createBooking connect findById eventId s1 email).2 = some doc →
        doc.eventId = eventId ∧ doc.email = normalizeEmail email) := by
  intro connect findById eventId email s1 s2
  constructor
  · rfl
  · intro doc hdoc
    unfold createBooking at hdoc
    cases connect with
    | error e => simp at hdoc
    | ok u =>
      cases hs : saveNewBooking findById eventId email with
      | error e => rw [hs] at hdoc; simp at hdoc
      | ok d =>
        rw [hs] at hdoc
        simp only [Option.some.injEq] at hdoc
        subst hdoc
        unfold saveNewBooking at hs
        cases hv : bookingEmailField email with
        | error e => rw [hv] at hs; simp at hs
        | ok v =>
          rw [hv] at hs
          cases hp : bookingPreSave true true (findById eventId) with
          | error e => rw [hp] at hs; simp at hs
          | ok u2 =>
            rw [hp] at hs
            simp only [Except.ok.injEq] at hs
            have hv2 := ((booking_email_normalized_and_validated email v).1 hv).1
            cases hs
            exact ⟨rfl, hv2⟩

/-- Witness for C10: two calls differing only in `slug` coincide, and the
persisted document is determined by `eventId` and normalized email. -/
theorem createBooking_slug_independent_witness :
    (createBooking (.ok ()) (fun _ => .ok (some { title := "t", slug := "s" }))
        "evt1" "slug-one" "A@B.COM"
      = createBooking (.ok ())
          (fun _ => .ok (some { title := "t", slug := "s" }))
          "evt1" "slug-two" "A@B.COM")
    ∧ (BookingDoc.eventId { eventId := "evt1", email := "a@b.com" } = "evt1"
        ∧ BookingDoc.email { eventId := "evt1", email := "a@b.com" }
            = normalizeEmail "A@B.COM") :=
  ⟨(createBooking_slug_independent (.ok ())
      (fun _ => .ok (some { title := "t", slug := "s" }))
      "evt1" "A@B.COM" "slug-one" "slug-two").1,
   (createBooking_slug_independent (.ok ())
      (fun _ => .ok (some { title := "t", slug := "s" }))
      "evt1" "A@B.COM" "slug-one" "slug-two").2
      { eventId := "evt1", email := "a@b.com" } rfl⟩

/-! ## Digit characters -/

theorem isDigitChar_iff {c : Char} :
    isDigitChar c = true ↔ 48 ≤ c.toNat ∧ c.toNat ≤ 57 := by
  simp [isDigitChar]

theorem digitChar_isDigit {n : Nat} (h : n ≤ 9) :
    isDigitChar (digitChar n) = true := by
  interval_cases n <;> decide

theorem digitVal_digitChar {n : Nat} (h : n ≤ 9) :
    digitVal (digitChar n) = n := by
  interval_cases n <;> decide

theorem digitVal_le_nine {c : Char} (h : isDigitChar c = true) :
    digitVal c ≤ 9 := by
  rcases isDigitChar_iff.mp h with ⟨h1, h2⟩
  unfold digitVal
  omega

theorem digitChar_digitVal {c : Char} (h : isDigitChar c = true) :
    digitChar (digitVal c) = c := by
  rcases isDigitChar_iff.mp h with ⟨h1, h2⟩
  unfold digitChar digitVal
  have h3 : 48 + (c.toNat - 48) = c.toNat := by omega
  rw [h3]
  exact Char.ofNat_toNat c

/-! ## Event time validation

Modelled from the spec: `event.model.ts` is not among the available
sources.  The spec admits exactly `H:MM` or `HH:MM` with hour in 0..23 and
minute in 0..59 (tests: "00:00", "09:30", "13:45", "23:59", "9:00"
accepted; "25:00", "12:60", "9:5", "9", "abc", "12:00 PM" rejected). -/

/-- The class `[0-5]`: the high minute digit. -/
def isMinuteHigh (c : Char) : Bool :=
  decide (48 ≤ c.toNat) && decide (c.toNat ≤ 53)

/-- The minute part `MM`: a `[0-5]` digit then any digit. -/
def minutePartOk (m1 m2 : Char) : Bool := isMinuteHigh m1 && isDigitChar m2

/-- Modelled from the spec: the time validator over the character list,
accepting `H:MM` (any single digit hour) and `HH:MM` with hour value at
most 23. -/
def timeTestL : List Char → Bool
  | [h, c, m1, m2] =>
    isDigitChar h && c == Char.ofNat 58 && minutePartOk m1 m2
  | [h1, h2, c, m1, m2] =>
    isDigitChar h1 && isDigitChar h2 && c == Char.ofNat 58
      && decide (10 * digitVal h1 + digitVal h2 ≤ 23) && minutePartOk m1 m2
  | _ => false

/-- The time validator on strings. -/
def timeTest (s : String) : Bool := timeTestL s.data

/-- The pre-persist time hook: reject invalid times with the validation
message the tests expect. -/
def eventTimeHook (s : String) : Except String Unit :=
  if timeTest s then .ok ()
  else .error "Time must be in HH:MM format (24-hour)"

/-- Two-digit zero-padded rendering of a value below 100. -/
def twoDigits (n : Nat) : List Char := [digitChar (n / 10 % 10), digitChar (n % 10)]

/-- The spec's declarative reading of an accepted time: some hour at most
23 and minute at most 59, written either as a single hour digit or as two
hour digits, a colon, and two minute digits. -/
def timeSpecAccepts (s : String) : Prop :=
  ∃ h m, h ≤ 23 ∧ m ≤ 59 ∧
    ((h ≤ 9 ∧ s.data = digitChar h :: Char.ofNat 58 :: twoDigits m)
      ∨ s.data = twoDigits h ++ Char.ofNat 58 :: twoDigits m)

theorem isMinuteHigh_digit {c : Char} (h : isMinuteHigh c = true) :
    isDigitChar c = true ∧ digitVal c ≤ 5 := by
  unfold isMinuteHigh at h
  rcases bandElim h with ⟨h1, h2⟩
  rw [decide_eq_true_iff] at h1 h2
  refine ⟨isDigitChar_iff.mpr ⟨h1, by omega⟩, ?_⟩
  unfold digitVal
  omega

theorem isMinuteHigh_digitChar {n : Nat} (h : n ≤ 5) :
    isMinuteHigh (digitChar n) = true := by
  interval_cases n <;> decide

theorem minutePart_render {m : Nat} (h : m ≤ 59) :
    minutePartOk (digitChar (m / 10 % 10)) (digitChar (m % 10)) = true := by
  unfold minutePartOk
  refine bandIntro (isMinuteHigh_digitChar ?_) (digitChar_isDigit ?_) <;> omega

theorem minutePart_value {m1 m2 : Char} (h : minutePartOk m1 m2 = true) :
    10 * digitVal m1 + digitVal m2 ≤ 59
      ∧ digitChar ((10 * digitVal m1 + digitVal m2) / 10 % 10) = m1
      ∧ digitChar ((10 * digitVal m1 + digitVal m2) % 10) = m2 := by
  unfold minutePartOk at h
  rcases bandElim h with ⟨h1, h2⟩
  rcases isMinuteHigh_digit h1 with ⟨h1d, h1v⟩
  have h2v := digitVal_le_nine h2
  refine ⟨by omega, ?_, ?_⟩
  · have : (10 * digitVal m1 + digitVal m2) / 10 % 10 = digitVal m1 := by omega
    rw [this]; exact digitChar_digitVal h1d
  · have : (10 * digitVal m1 + digitVal m2) % 10 = digitVal m2 := by omega
    rw [this]; exact digitChar_digitVal h2

theorem timeTestL_sound {l : List Char} (h : timeTestL l = true) :
    ∃ hv m, hv ≤ 23 ∧ m ≤ 59 ∧
      ((hv ≤ 9 ∧ l = digitChar hv :: Char.ofNat 58 :: twoDigits m)
        ∨ l = twoDigits hv ++ Char.ofNat 58 :: twoDigits m) := by
  match l with
  | [] => exact Bool.noConfusion h
  | [a] => exact Bool.noConfusion h
  | [a, b] => exact Bool.noConfusion h
  | [a, b, c] => exact Bool.noConfusion h
  | [a, b, c, d] =>
    have h2 : (isDigitChar a && b == Char.ofNat 58 && minutePartOk c d)
        = true := h
    rcases bandElim h2 with ⟨h3, hmp⟩
    rcases bandElim h3 with ⟨hda, hcol⟩
    have hb : b = Char.ofNat 58 := eq_of_beq hcol
    rcases minutePart_value hmp with ⟨hm59, hm1, hm2⟩
    refine ⟨digitVal a, 10 * digitVal c + digitVal d, ?_, hm59,
      Or.inl ⟨digitVal_le_nine hda, ?_⟩⟩
    · have := digitVal_le_nine hda; omega
    · show [a, b, c, d] = _
      unfold twoDigits
      rw [digitChar_digitVal hda, hm1, hm2, hb]
  | [a, b, c, d, e] =>
    have h2 : (isDigitChar a && isDigitChar b && c == Char.ofNat 58
        && decide (10 * digitVal a + digitVal b ≤ 23)
        && minutePartOk d e) = true := h
    rcases bandElim h2 with ⟨h3, hmp⟩
    rcases bandElim h3 with ⟨h4, h23⟩
    rcases bandElim h4 with ⟨h5, hcol⟩
    rcases bandElim h5 with ⟨hda, hdb⟩
    rw [decide_eq_true_iff] at h23
    have hc : c = Char.ofNat 58 := eq_of_beq hcol
    rcases minutePart_value hmp with ⟨hm59, hm1, hm2⟩
    refine ⟨10 * digitVal a + digitVal b, 10 * digitVal d + digitVal e,
      h23, hm59, Or.inr ?_⟩
    have hva := digitVal_le_nine hda
    have hvb := digitVal_le_nine hdb
    have e1 : (10 * digitVal a + digitVal b) / 10 % 10 = digitVal a := by omega
    have e2 : (10 * digitVal a + digitVal b) % 10 = digitVal b := by omega
    show [a, b, c, d, e] = _
    unfold twoDigits
    simp only [List.cons_append, List.nil_append]
    rw [e1, e2, digitChar_digitVal hda, digitChar_digitVal hdb, hm1, hm2, hc]
  | a :: b :: c :: d :: e :: f :: rest => exact Bool.noConfusion h

theorem timeTestL_complete (hv m : Nat) (h23 : hv ≤ 23) (hm : m ≤ 59) :
    (hv ≤ 9 → timeTestL (digitChar hv :: Char.ofNat 58 :: twoDigits m) = true)
    ∧ timeTestL (twoDigits hv ++ Char.ofNat 58 :: twoDigits m) = true := by
  constructor
  · intro h9
    show (isDigitChar (digitChar hv) && (Char.ofNat 58 == Char.ofNat 58)
        && minutePartOk (digitChar (m / 10 % 10)) (digitChar (m % 10))) = true
    exact bandIntro (bandIntro (digitChar_isDigit h9) (by decide))
      (minutePart_render hm)
  · show (isDigitChar (digitChar (hv / 10 % 10))
        && isDigitChar (digitChar (hv % 10))
        && (Char.ofNat 58 == Char.ofNat 58)
        && decide (10 * digitVal (digitChar (hv / 10 % 10))
            + digitVal (digitChar (hv % 10)) ≤ 23)
        && minutePartOk (digitChar (m / 10 % 10)) (digitChar (m % 10))) = true
    refine bandIntro (bandIntro (bandIntro (bandIntro
      (digitChar_isDigit (by omega)) (digitChar_isDigit (by omega)))
      (by decide)) ?_) (minutePart_render hm)
    rw [decide_eq_true_iff,
      digitVal_digitChar (show hv / 10 % 10 ≤ 9 by omega),
      digitVal_digitChar (show hv % 10 ≤ 9 by omega)]
    omega

/-- C4: the persisted time is accepted exactly when it is `H:MM` or
`HH:MM` with hour at most 23 and minute at most 59; the spec's accepted
and rejected examples evaluate accordingly through the validation hook. -/
theorem time_validation_exact : ∀ s : String,
    (timeTest s = true ↔ timeSpecAccepts s)
    ∧ eventTimeHook "09:30" = .ok ()
    ∧ eventTimeHook "9:00" = .ok ()
    ∧ eventTimeHook "23:59" = .ok ()
    ∧ eventTimeHook "25:00" = .error "Time must be in HH:MM format (24-hour)"
    ∧ eventTimeHook "12:60" = .error "Time must be in HH:MM format (24-hour)"
    ∧ eventTimeHook "9:5" = .error "Time must be in HH:MM format (24-hour)"
    ∧ eventTimeHook "12:00 PM"
        = .error "Time must be in HH:MM format (24-hour)" := by
  intro s
  refine ⟨⟨?_, ?_⟩, rfl, rfl, rfl, rfl, rfl, rfl, rfl⟩
  · intro h
    exact timeTestL_sound h
  · rintro ⟨hv, m, h23, hm, hcase⟩
    unfold timeTest
    rcases hcase with ⟨h9, hform⟩ | hform
    · rw [hform]; exact (timeTestL_complete hv m h23 hm).1 h9
    · rw [hform]; exact (timeTestL_complete hv m h23 hm).2

/-- Witness for C4: both directions of the equivalence at concrete times. -/
theorem time_validation_witness :
    timeSpecAccepts "09:30" ∧ timeTest "7:45" = true :=
  ⟨(time_validation_exact "09:30").1.mp (by decide),
   (time_validation_exact "7:45").1.mpr
     ⟨7, 45, by omega, by omega, Or.inl ⟨by omega, by decide⟩⟩⟩

/-! ## Event date normalization

Modelled from the spec: `event.model.ts` is not among the available
sources, and the multi-format calendar parser is an external collaborator
(spec section 6).  The parser is therefore a parameter producing a parsed
calendar date (year, month, day, with the year within the four-digit range
the stored format carries) or nothing; the hook rewrites a parsed date to
`YYYY-MM-DD` and rejects an unparseable one with the validation message
the tests expect. -/

/-- A parsed calendar date. -/
structure CalendarDate where
  year : Nat
  month : Nat
  day : Nat
  deriving Repr, DecidableEq

/-- Four-digit zero-padded rendering of a value below 10000. -/
def fourDigits (n : Nat) : List Char :=
  [digitChar (n / 1000 % 10), digitChar (n / 100 % 10),
   digitChar (n / 10 % 10), digitChar (n % 10)]

/-- Render a calendar date as `YYYY-MM-DD`. -/
def formatYMD (d : CalendarDate) : String :=
  String.mk (fourDigits d.year ++ Char.ofNat 45 :: twoDigits d.month
    ++ Char.ofNat 45 :: twoDigits d.day)

/-- The stored-date shape the spec requires: four digits, a hyphen, two
digits, a hyphen, two digits. -/
def isYMDShape (s : String) : Bool :=
  match s.data with
  | [y1, y2, y3, y4, a, m1, m2, b, d1, d2] =>
    isDigitChar y1 && isDigitChar y2 && isDigitChar y3 && isDigitChar y4
      && a == Char.ofNat 45 && isDigitChar m1 && isDigitChar m2
      && b == Char.ofNat 45 && isDigitChar d1 && isDigitChar d2
  | _ => false

/-- Modelled from the spec: the pre-persist date hook, parameterized by
the external calendar parser. -/
def eventDateHook (parse : String → Option CalendarDate) (s : String) :
    Except String String :=
  match parse s with
  | some d => .ok (formatYMD d)
  | none => .error "Date must be a valid date string"

/-- C5: whatever date the parser understands is stored rewritten to the
ten-character `YYYY-MM-DD` shape, and whatever it cannot parse is rejected
with the validation error. -/
theorem date_normalization_shape :
    ∀ (parse : String → Option CalendarDate) (s : String) (d : CalendarDate),
    (parse s = some d →
      eventDateHook parse s = .ok (formatYMD d)
        ∧ isYMDShape (formatYMD d) = true)
    ∧ (parse s = none →
      eventDateHook parse s = .error "Date must be a valid date string") := by
  intro parse s d
  constructor
  · intro hp
    constructor
    · unfold eventDateHook; rw [hp]
    · show (isDigitChar (digitChar (d.year / 1000 % 10))
          && isDigitChar (digitChar (d.year / 100 % 10))
          && isDigitChar (digitChar (d.year / 10 % 10))
          && isDigitChar (digitChar (d.year % 10))
          && (Char.ofNat 45 == Char.ofNat 45)
          && isDigitChar (digitChar (d.month / 10 % 10))
          && isDigitChar (digitChar (d.month % 10))
          && (Char.ofNat 45 == Char.ofNat 45)
          && isDigitChar (digitChar (d.day / 10 % 10))
          && isDigitChar (digitChar (d.day % 10))) = true
      refine bandIntro (bandIntro (bandIntro (bandIntro (bandIntro
        (bandIntro (bandIntro (bandIntro (bandIntro
          (digitChar_isDigit (by omega)) (digitChar_isDigit (by omega)))
          (digitChar_isDigit (by omega))) (digitChar_isDigit (by omega)))
          (by decide)) (digitChar_isDigit (by omega)))
          (digitChar_isDigit (by omega))) (by decide))
          (digitChar_isDigit (by omega))) (digitChar_isDigit (by omega))
  · intro hp
    unfold eventDateHook; rw [hp]

/-- Witness for C5: a parser recognizing "June 15, 2024" as 2024-06-15
and rejecting "invalid-date". -/
theorem date_normalization_witness :
    eventDateHook
        (fun s => if s = "June 15, 2024" then some ⟨2024, 6, 15⟩ else none)
        "June 15, 2024" = .ok "2024-06-15"
    ∧ isYMDShape "2024-06-15" = true
    ∧ eventDateHook
        (fun s => if s = "June 15, 2024" then some ⟨2024, 6, 15⟩ else none)
        "invalid-date" = .error "Date must be a valid date string" := by
  have h1 := (date_normalization_shape
    (fun s => if s = "June 15, 2024" then some ⟨2024, 6, 15⟩ else none)
    "June 15, 2024" ⟨2024, 6, 15⟩).1 (by simp)
  have h2 := (date_normalization_shape
    (fun s => if s = "June 15, 2024" then some ⟨2024, 6, 15⟩ else none)
    "invalid-date" ⟨2024, 6, 15⟩).2 (by simp)
  refine ⟨?_, ?_, h2⟩
  · rw [h1.1]
    rfl
  · have := h1.2
    simpa using this

/-! ## Connection cache

Modelled from the spec: `lib/mongodb.ts` is not among the available
sources.  Spec section 4.1: process-wide state holds an established
connection handle and an in-flight attempt; a call returns the cached
handle when set, joins the in-flight attempt when one exists, and
otherwise starts a new attempt; success fills the handle slot, failure
clears the in-flight slot and propagates.  Attempts carry identifiers so
that "the same single attempt" is expressible; `started` counts the
attempts begun so far and numbers the next one. -/

/-- The two process-wide cache slots. -/
structure ConnCache where
  conn : Option Nat
  promiseAttempt : Option Nat
  deriving Repr, DecidableEq

/-- The cache together with the count of attempts started so far. -/
structure ConnSys where
  cache : ConnCache
  started : Nat
  deriving Repr, DecidableEq

/-- What the synchronous prefix of one `getConnection()` call does:
fail on missing configuration, return the cached handle, or name the
attempt the caller will await. -/
inductive CallStart where
  | configError : CallStart
  | immediate (handle : Nat) : CallStart
  | awaiting (attempt : Nat) : CallStart
  deriving Repr, DecidableEq

/-- Modelled from the spec: the synchronous prefix of `getConnection()`.
With no connection string it fails at once; with a cached handle it
returns it; with an in-flight attempt it joins it; otherwise it starts
attempt number `st.started` and records it as in flight. -/
def connectStart (uriPresent : Bool) (st : ConnSys) : CallStart × ConnSys :=
  if uriPresent = false then (.configError, st)
  else
    match st.cache.conn with
    | some h => (.immediate h, st)
    | none =>
      match st.cache.promiseAttempt with
      | some a => (.awaiting a, st)
      | none =>
        (.awaiting st.started,
          { cache := { conn := none, promiseAttempt := some st.started },
            started := st.started + 1 })

/-- Modelled from the spec: resolution of the in-flight attempt with a
handle stores the handle; the in-flight slot keeps the resolved attempt. -/
def resolveSuccess (handle : Nat) (st : ConnSys) : ConnSys :=
  { st with cache := { st.cache with conn := some handle } }

/-- Modelled from the spec: a failed attempt clears the in-flight slot
and leaves the handle slot as it was (unset). -/
def resolveFailure (st : ConnSys) : ConnSys :=
  { st with cache := { st.cache with promiseAttempt := none } }

/-- The value a caller ends up with, given how each attempt completes. -/
def callerFinal (r : CallStart) (completions : Nat → Except String Nat) :
    Except String Nat :=
  match r with
  | .configError =>
    .error "Please define the MONGODB_URI environment variable inside .env.local"
  | .immediate h => .ok h
  | .awaiting a => completions a

/-- The initial process state: both slots unset, no attempt started. -/
def initConnSys : ConnSys :=
  { cache := { conn := none, promiseAttempt := none }, started := 0 }

/-- A burst of `n` calls arriving before any resolution happens. -/
def callsFrom (st : ConnSys) : Nat → List CallStart × ConnSys
  | 0 => ([], st)
  | n + 1 =>
    let first := connectStart true st
    let rest := callsFrom first.2 n
    (first.1 :: rest.1, rest.2)

/-- The state after the first call of a burst: attempt 0 in flight. -/
def pendingConnSys : ConnSys :=
  { cache := { conn := none, promiseAttempt := some 0 }, started := 1 }

theorem callsFrom_pending (n : Nat) :
    callsFrom pendingConnSys n = (List.replicate n (.awaiting 0), pendingConnSys) := by
  induction n with
  | zero => rfl
  | succ k ih =>
    show (CallStart.awaiting 0 :: (callsFrom pendingConnSys k).1,
      (callsFrom pendingConnSys k).2) = _
    rw [ih]
    rfl

/-- C6: however many calls arrive before the first attempt resolves,
exactly one attempt is started, every caller awaits that same attempt 0
and hence receives that single attempt's result; and once the handle slot
is set a call returns the handle at once without touching the state. -/
theorem connection_single_attempt : ∀ n : Nat, 1 ≤ n →
    ((callsFrom initConnSys n).2.started = 1
      ∧ ∀ r ∈ (callsFrom initConnSys n).1, r = .awaiting 0)
    ∧ (∀ completions : Nat → Except String Nat,
        ∀ r ∈ (callsFrom initConnSys n).1,
          callerFinal r completions = completions 0)
    ∧ (∀ (st : ConnSys) (h : Nat), st.cache.conn = some h →
        connectStart true st = (.immediate h, st)) := by
  intro n hn
  obtain ⟨k, rfl⟩ : ∃ k, n = k + 1 := ⟨n - 1, by omega⟩
  have hfirst : callsFrom initConnSys (k + 1)
      = (CallStart.awaiting 0 :: List.replicate k (.awaiting 0),
        pendingConnSys) := by
    show (CallStart.awaiting 0 :: (callsFrom pendingConnSys k).1,
      (callsFrom pendingConnSys k).2) = _
    rw [callsFrom_pending]
  refine ⟨⟨by rw [hfirst]; rfl, ?_⟩, ?_, ?_⟩
  · intro r hr
    rw [hfirst] at hr
    rcases List.mem_cons.mp hr with h | h
    · exact h
    · exact List.eq_of_mem_replicate h
  · intro completions r hr
    rw [hfirst] at hr
    have hr0 : r = .awaiting 0 := by
      rcases List.mem_cons.mp hr with h | h
      · exact h
      · exact List.eq_of_mem_replicate h
    rw [hr0]
    rfl
  · intro st h hconn
    unfold connectStart
    rw [hconn]
    rfl

/-- Witness for C6: a burst of three calls starts one attempt, each call
awaits attempt 0, and a warm cache answers immediately. -/
theorem connection_single_attempt_witness :
    ((callsFrom initConnSys 3).2.started = 1
      ∧ CallStart.awaiting 0 = .awaiting 0)
    ∧ callerFinal (.awaiting 0) (fun _ => .ok 7) = .ok 7
    ∧ connectStart true
        { cache := { conn := some 7, promiseAttempt := some 0 }, started := 1 }
      = (.immediate 7,
        { cache := { conn := some 7, promiseAttempt := some 0 }, started := 1 }) :=
  ⟨⟨((connection_single_attempt 3 (by omega)).1).1,
    ((connection_single_attempt 3 (by omega)).1).2 (.awaiting 0) (by decide)⟩,
   (connection_single_attempt 3 (by omega)).2.1 (fun _ => .ok 7)
     (.awaiting 0) (by decide),
   (connection_single_attempt 3 (by omega)).2.2
     { cache := { conn := some 7, promiseAttempt := some 0 }, started := 1 }
     7 rfl⟩

/-- C7: when the in-flight attempt fails, the failure reaches every
caller awaiting it, the in-flight slot is cleared while the handle slot
stays unset, and the next call starts a fresh attempt — a new attempt
number, not a replay of the rejected one. -/
theorem connection_failure_recovery :
    ∀ (st : ConnSys) (a : Nat) (completions : Nat → Except String Nat)
      (e : String),
    st.cache.conn = none → st.cache.promiseAttempt = some a →
    a < st.started →
    ((resolveFailure st).cache.promiseAttempt = none
      ∧ (resolveFailure st).cache.conn = none
      ∧ (completions a = .error e →
          callerFinal (.awaiting a) completions = .error e)
      ∧ (connectStart true (resolveFailure st)).1 = .awaiting st.started
      ∧ st.started ≠ a
      ∧ (connectStart true (resolveFailure st)).2.started
          = st.started + 1) := by
  intro st a completions e hconn hpromise hlt
  refine ⟨rfl, ?_, fun h => h, ?_, by omega, ?_⟩
  · show st.cache.conn = none
    exact hconn
  · unfold connectStart resolveFailure
    rw [hconn]
    rfl
  · unfold connectStart resolveFailure
    rw [hconn]
    rfl

/-- Witness for C7: the canonical failed first attempt. -/
theorem connection_failure_recovery_witness :
    (resolveFailure pendingConnSys).cache.promiseAttempt = none
    ∧ callerFinal (.awaiting 0) (fun _ => .error "Connection failed")
        = .error "Connection failed"
    ∧ (connectStart true (resolveFailure pendingConnSys)).1 = .awaiting 1 :=
  ⟨(connection_failure_recovery pendingConnSys 0
      (fun _ => .error "Connection failed") "Connection failed"
      rfl rfl (by decide)).1,
   (connection_failure_recovery pendingConnSys 0
      (fun _ => .error "Connection failed") "Connection failed"
      rfl rfl (by decide)).2.2.1 rfl,
   (connection_failure_recovery pendingConnSys 0
      (fun _ => .error "Connection failed") "Connection failed"
      rfl rfl (by decide)).2.2.2.1⟩
